import Mathlib

/-!
Shallow embedding of the sway-gravity placement engine.

Numeric model: Rust `f32` computations are embedded as exact rational
arithmetic (`ℚ`).  `f32::round` (round half away from zero) is `rustRound`,
float-to-integer `as` casts truncate toward zero and saturate to the target
range (`i32cast`, `u32cast`), and the integer `as` casts of `daemon/unit.rs`
wrap modulo 2^32 as in Rust (`u32AsI32`, `i32AsU32`).  Machine integers are
`ℤ`/`ℕ` with the saturating/wrapping behaviour of the source made explicit.
-/

namespace SwayGravity

/-- Rust `f32::round`: round half away from zero. -/
def rustRound (q : ℚ) : ℤ :=
  if 0 ≤ q then ⌊q + 1/2⌋ else -⌊-q + 1/2⌋

/-- Truncation toward zero, the first stage of Rust float-to-int `as` casts. -/
def ratTrunc (q : ℚ) : ℤ :=
  if 0 ≤ q then ⌊q⌋ else -⌊-q⌋

/-- Rust `f32::max(0.0)` for a non-NaN value. -/
def ratMaxZero (q : ℚ) : ℚ :=
  if 0 ≤ q then q else 0

/-- Saturation of an integer to the `i32` range. -/
def i32sat (z : ℤ) : ℤ :=
  if z < -(2 ^ 31) then -(2 ^ 31) else if z ≤ 2 ^ 31 - 1 then z else 2 ^ 31 - 1

/-- Rust `f32 as i32`: truncate toward zero, saturating to the `i32` range. -/
def i32cast (q : ℚ) : ℤ :=
  i32sat (ratTrunc q)

/-- Rust `f32 as u32`: truncate toward zero, saturating to the `u32` range. -/
def u32cast (z : ℤ) : ℕ :=
  (if z < 0 then 0 else if z ≤ 2 ^ 32 - 1 then z else 2 ^ 32 - 1).toNat

/-- Rust `i32::saturating_add`. -/
def satAddI32 (a b : ℤ) : ℤ :=
  i32sat (a + b)

/-- Rust `u32 as i32`: reinterpret modulo 2^32 into the signed range. -/
def u32AsI32 (n : ℕ) : ℤ :=
  if (n : ℤ) % 2 ^ 32 < 2 ^ 31 then (n : ℤ) % 2 ^ 32 else (n : ℤ) % 2 ^ 32 - 2 ^ 32

/-- Rust `i32 as u32`: reinterpret modulo 2^32 into the unsigned range. -/
def i32AsU32 (z : ℤ) : ℕ :=
  (z % 2 ^ 32).toNat

/-- src/src/main.rs `AbsoluteUnit`: absolute pixels (`u32`) or percentage (`f32`). -/
inductive AbsoluteUnit where
  | Pixels (v : ℕ)
  | Percentage (v : ℚ)
deriving DecidableEq, Repr

/-- src/src/main.rs `RelativeUnit`: signed pixel delta (`i32`) or percentage delta (`f32`). -/
inductive RelativeUnit where
  | Pixels (v : ℤ)
  | Percentage (v : ℚ)
deriving DecidableEq, Repr

/-- src/src/main.rs `Unit`: a relative or absolute dimension. -/
inductive Unit where
  | Relative (u : RelativeUnit)
  | Absolute (u : AbsoluteUnit)
deriving DecidableEq, Repr

/-- src/src/main.rs `unit_to_real_pixels`: resolve a `Unit` against a baseline
(`target_px`) and a container extent (`container_px`); the result is clamped to
zero by `.max(0.0)`, rounded, and cast to `i32`. -/
def unit_to_real_pixels (u : Unit) (target_px container_px : ℤ) : ℤ :=
  let real : ℚ :=
    match u with
    | .Absolute (.Pixels pixels) => (pixels : ℚ)
    | .Absolute (.Percentage percentage) => (container_px : ℚ) * (percentage / 100)
    | .Relative (.Pixels pixels) => ((satAddI32 target_px pixels : ℤ) : ℚ)
    | .Relative (.Percentage percentage) =>
        let current := (target_px : ℚ) / (container_px : ℚ)
        let adjusted := current + percentage / 100
        (container_px : ℚ) * adjusted
  i32sat (rustRound (ratMaxZero real))

/-- src/src/daemon/unit.rs `impl Add<RelativePixels> for AbsolutePixels`:
`AbsolutePixels((self.0 as i32 + other.0) as u32)` — plain integer casts,
no clamping. -/
def absolutePixels_add_relativePixels (a : ℕ) (r : ℤ) : ℕ :=
  i32AsU32 (u32AsI32 a + r)

/-- src/src/daemon/unit.rs `AbsolutePixels::as_absolute_percentage`:
`((self.0 as f32 / container_px as f32) * 100.0).round()` stored as `f32`. -/
def as_absolute_percentage (p : ℕ) (container_px : ℤ) : ℚ :=
  ((rustRound ((p : ℚ) / (container_px : ℚ) * 100) : ℤ) : ℚ)

/-- src/src/daemon/unit.rs `AbsolutePercentage::as_absolute_pixels`:
`((self.0 / 100.0) * container_px as f32).round() as u32`. -/
def as_absolute_pixels (pct : ℚ) (container_px : ℤ) : ℕ :=
  u32cast (rustRound (pct / 100 * (container_px : ℚ)))

/-- src/src/main.rs `Rect`: `{x, y, width, height}`, all `i32`. -/
structure Rect where
  x : ℤ
  y : ℤ
  width : ℤ
  height : ℤ
deriving DecidableEq, Repr

/-- src/src/main.rs `aspect_ratio`: `width / height` as `f32`, `0` when `height == 0`. -/
def aspect_ratio (width height : ℤ) : ℚ :=
  if height = 0 then 0 else (width : ℚ) / (height : ℚ)

/-- src/src/main.rs `Dimension`. -/
inductive Dimension where
  | Width (v : ℤ)
  | Height (v : ℤ)
deriving DecidableEq, Repr

/-- src/src/main.rs `scale_to_ratio`: derive the missing dimension from the
aspect ratio; yields 0 when the ratio is 0. -/
def scale_to_ratio (dimension : Dimension) (ratio : ℚ) : Dimension :=
  if ratio = 0 then
    match dimension with
    | .Width _ => .Height 0
    | .Height _ => .Width 0
  else
    match dimension with
    | .Width width => .Height (i32sat (rustRound ((width : ℚ) / ratio)))
    | .Height height => .Width (i32sat (rustRound ((height : ℚ) * ratio)))

/-- src/src/main.rs `Vertical`. -/
inductive Vertical where
  | Top
  | Middle
  | Bottom
deriving DecidableEq, Repr

/-- src/src/main.rs `Horizontal`. -/
inductive Horizontal where
  | Left
  | Middle
  | Right
deriving DecidableEq, Repr

/-- src/src/main.rs `Position(Vertical, Horizontal)`; field `ver` is the
tuple-struct position 0, `hor` is position 1. -/
structure Position where
  ver : Vertical
  hor : Horizontal
deriving DecidableEq, Repr

/-- src/src/main.rs `Rect::with_padding`. -/
def Rect.with_padding (self : Rect) (padding : ℤ) : Rect :=
  { self with
    x := self.x + padding
    y := self.y + padding
    width := self.width - padding * 2
    height := self.height - padding * 2 }

/-- src/src/main.rs `Rect::translate`. -/
def Rect.translate (self : Rect) (x y : ℤ) : Rect :=
  { self with x := self.x + x, y := self.y + y }

/-- src/src/main.rs `Rect::scale`: resolve the requested width/height against
the target and container, filling a missing dimension from the aspect ratio.
The two `unreachable!()` arms of the source are modelled with the junk value 0;
they are unreachable because the pair is always (Width, Height) by
construction. -/
def Rect.scale (self : Rect) (width height : Option Unit) (target container : Rect)
    (ratio : Option ℚ) : Rect :=
  let aspect := ratio.getD (aspect_ratio target.width target.height)
  let wh : Dimension × Dimension :=
    match width, height with
    | some w, some h =>
        (.Width (unit_to_real_pixels w target.width container.width),
         .Height (unit_to_real_pixels h target.height container.height))
    | some w, none =>
        let wpx := unit_to_real_pixels w target.width container.width
        (.Width wpx, scale_to_ratio (.Width wpx) aspect)
    | none, some h =>
        let hpx := unit_to_real_pixels h target.height container.height
        (scale_to_ratio (.Height hpx) aspect, .Height hpx)
    | none, none => (.Width target.width, .Height target.height)
  let w : ℤ := match wh.1 with
    | .Width w => w
    | _ => 0
  let h : ℤ := match wh.2 with
    | .Height h => h
    | _ => 0
  { self with width := w, height := h }

/-- src/src/main.rs vertical zone-to-offset fraction in `get_pos_for_rect_of_size`. -/
def v_offset (v : Vertical) : ℚ :=
  match v with
  | .Top => 0
  | .Middle => 1/2
  | .Bottom => 1

/-- src/src/main.rs horizontal zone-to-offset fraction in `get_pos_for_rect_of_size`. -/
def h_offset (h : Horizontal) : ℚ :=
  match h with
  | .Left => 0
  | .Middle => 1/2
  | .Right => 1

/-- src/src/main.rs `Rect::get_pos_for_rect_of_size`: place `rect` inside
`self` according to the zone pair; the `f32` products are cast back with
`as i32`. -/
def Rect.get_pos_for_rect_of_size (self : Rect) (pos : Position) (rect : Rect) : Rect :=
  let x := i32cast ((self.width : ℚ) * h_offset pos.hor - (rect.width : ℚ) * h_offset pos.hor)
  let y := i32cast ((self.height : ℚ) * v_offset pos.ver - (rect.height : ℚ) * v_offset pos.ver)
  { x := x, y := y, width := rect.width, height := rect.height }

/-- src/src/main.rs `PositionUpdate(Option<Vertical>, Option<Horizontal>)`. -/
structure PositionUpdate where
  ver : Option Vertical
  hor : Option Horizontal
deriving DecidableEq, Repr

/-- src/src/main.rs `Position::update`: each zone overwrites only when present. -/
def Position.update (self : Position) (update : PositionUpdate) : Position :=
  let s1 := match update.ver with
    | some vertical => { self with ver := vertical }
    | none => self
  match update.hor with
  | some horizontal => { s1 with hor := horizontal }
  | none => s1

/-- src/src/main.rs `State`: the Placement State record. -/
structure State where
  position : Position
  padding : ℕ
  width : Option Unit
  height : Option Unit
  natural : Bool
deriving DecidableEq, Repr

/-- src/src/main.rs `Default for State`: bottom/right zone, zero padding, no
size, natural off. -/
def State.default : State :=
  { position := { ver := .Bottom, hor := .Right }
    padding := 0
    width := none
    height := none
    natural := false }

/-- src/src/main.rs `StateUpdate`: the optional-field Placement Update;
`width`/`height` are `Option<Option<Unit>>`. -/
structure StateUpdate where
  position : PositionUpdate
  padding : Option ℕ
  width : Option (Option Unit)
  height : Option (Option Unit)
  natural : Option Bool
deriving DecidableEq, Repr

/-- src/src/main.rs `Default for StateUpdate` (derived): all fields absent. -/
def StateUpdate.empty : StateUpdate :=
  { position := { ver := none, hor := none }
    padding := none
    width := none
    height := none
    natural := none }

/-- src/src/main.rs `State::update`: merge a partial update; supplying exactly
one of width/height clears the other to `None`, supplying neither leaves both
untouched. -/
def State.update (self : State) (update : StateUpdate) : State :=
  let s1 := { self with position := self.position.update update.position }
  let s2 := match update.padding with
    | some padding => { s1 with padding := padding }
    | none => s1
  let s3 := match update.natural with
    | some natural => { s2 with natural := natural }
    | none => s2
  match update.width, update.height with
  | some width, some height => { s3 with width := width, height := height }
  | some width, none => { s3 with width := width, height := none }
  | none, some height => { s3 with width := none, height := height }
  | none, none => s3

/-- src/src/main.rs `Args`: the placement-relevant invocation arguments
(the socket path, an external file-system value, is omitted). -/
structure Args where
  vertical : Option Vertical
  horizontal : Option Horizontal
  padding : Option ℕ
  width : Option Unit
  height : Option Unit
  natural : Option Bool
  daemon : Bool
  sway_event_delay : ℕ
  shutdown : Bool
deriving DecidableEq, Repr

/-- src/src/main.rs `impl From<Args> for StateUpdate`: note that `width` and
`height` are wrapped as `Some(args.width)` / `Some(args.height)`, so an absent
argument becomes the explicit value `Some(None)`. -/
def stateUpdateFromArgs (args : Args) : StateUpdate :=
  { position := { ver := args.vertical, hor := args.horizontal }
    padding := args.padding
    width := some args.width
    height := some args.height
    natural := args.natural }

/-- src/src/main.rs `StateUpdateError`: the sway error payload is abstracted
as a numeric code. -/
inductive StateUpdateError where
  | SwayIPC (code : ℕ)
  | NoApplicableNode
  | MultipleApplicableNodes
deriving DecidableEq, Repr

/-- Abstraction of a `swayipc` tree node as consumed by `move_window`:
`floating` is `node_type == NodeType::FloatingCon`, `focused` the focus flag. -/
structure SwayNode where
  id : ℕ
  floating : Bool
  focused : Bool
deriving DecidableEq, Repr

/-- src/src/main.rs `move_window` target selection, first stage:
`tree.iter().filter(|node| node.node_type == NodeType::FloatingCon)`. -/
def floating_nodes (tree : List SwayNode) : List SwayNode :=
  tree.filter (fun node => node.floating)

/-- Modelled from the spec: `swayipc::Node::find_focused_as_ref` is external
collaborator code (the `swayipc` crate, not part of this repository); per the
spec it selects "the currently focused floating window", modelled as the first
node of the snapshot satisfying the predicate. -/
def find_focused_as_ref (tree : List SwayNode) (p : SwayNode → Bool) : Option SwayNode :=
  tree.find? p

/-- src/src/main.rs `move_window`, target-selection prefix: one floating node
is used directly; zero floating nodes is `NoApplicableNode`; otherwise the
focused floating node is searched for, `MultipleApplicableNodes` when absent. -/
def select_target (tree : List SwayNode) : Except StateUpdateError SwayNode :=
  match floating_nodes tree with
  | [node] => .ok node
  | [] => .error .NoApplicableNode
  | _ =>
    match find_focused_as_ref tree (fun node => node.focused && node.floating) with
    | some node => .ok node
    | none => .error .MultipleApplicableNodes

/-- src/src/main.rs `DaemonEvent`. -/
inductive DaemonEvent where
  | Shutdown
  | Update (u : StateUpdate)
deriving DecidableEq, Repr

/-- One `DaemonEvent::Update` iteration of src/src/main.rs `run_daemon`:
`state.update(update)` runs first, then `move_window` is attempted on a clone
of the merged state; a failure is only logged.  `mv` abstracts
`move_window(&mut con, state.clone())`; the returned pair is the state carried
to the next loop iteration and the reported error, if any. -/
def daemonUpdateStep (state : State) (update : StateUpdate)
    (mv : State → Except StateUpdateError PUnit) : State × Option StateUpdateError :=
  let merged := state.update update
  match mv merged with
  | .ok _ => (merged, none)
  | .error e => (merged, some e)

/-! Shared evaluation lemmas for the numeric model. -/

lemma i32sat_of_mem {z : ℤ} (h1 : -(2 ^ 31) ≤ z) (h2 : z ≤ 2 ^ 31 - 1) : i32sat z = z := by
  rw [i32sat, if_neg (by omega), if_pos h2]

lemma rustRound_eq_round {q : ℚ} (h : 0 ≤ q) : rustRound q = round q := by
  rw [rustRound, if_pos h, round_eq]

lemma rustRound_intCast (z : ℤ) : rustRound (z : ℚ) = z := by
  rcases le_or_lt 0 z with h | h
  · rw [rustRound_eq_round (by exact_mod_cast h), round_intCast]
  · have hq : ¬(0 ≤ (z : ℚ)) := by
      simp only [not_le]
      exact_mod_cast h
    rw [rustRound, if_neg hq]
    have : -(z : ℚ) = ((-z : ℤ) : ℚ) := by push_cast; ring
    rw [this, ← round_eq, round_intCast]
    omega

lemma rustRound_zero : rustRound 0 = 0 := by
  have := rustRound_intCast 0
  simpa using this

lemma ratTrunc_intCast (z : ℤ) : ratTrunc (z : ℚ) = z := by
  rcases le_or_lt 0 z with h | h
  · rw [ratTrunc, if_pos (by exact_mod_cast h), Int.floor_intCast]
  · have hq : ¬(0 ≤ (z : ℚ)) := by
      simp only [not_le]
      exact_mod_cast h
    rw [ratTrunc, if_neg hq]
    have : -(z : ℚ) = ((-z : ℤ) : ℚ) := by push_cast; ring
    rw [this, Int.floor_intCast]
    omega

lemma rustRound_nonneg {q : ℚ} (h : 0 ≤ q) : 0 ≤ rustRound q := by
  rw [rustRound_eq_round h, round_eq]
  exact Int.le_floor.mpr (by push_cast; linarith)

lemma abs_sub_rustRound {q : ℚ} (h : 0 ≤ q) : |q - (rustRound q : ℚ)| ≤ 1 / 2 := by
  rw [rustRound_eq_round h]
  exact abs_sub_round q

/-- Truncation of an exact half-integer quotient agrees with Rust `i32` division. -/
lemma ratTrunc_half (a : ℤ) : ratTrunc ((a : ℚ) / 2) = a.tdiv 2 := by
  rcases le_or_lt 0 a with h | h
  · have hq : (0 : ℚ) ≤ (a : ℚ) / 2 := by positivity
    rw [ratTrunc, if_pos hq]
    have hfl : ⌊(a : ℚ) / ((2 : ℕ) : ℚ)⌋ = a / ((2 : ℕ) : ℤ) :=
      Rat.floor_intCast_div_natCast a 2
    have h2 : ((2 : ℕ) : ℚ) = (2 : ℚ) := by norm_num
    rw [h2] at hfl
    rw [hfl, Int.tdiv_eq_ediv] <;> omega
  · have hq : ¬(0 : ℚ) ≤ (a : ℚ) / 2 := by
      simp only [not_le]
      have : (a : ℚ) < 0 := by exact_mod_cast h
      linarith
    rw [ratTrunc, if_neg hq]
    have hneg : -((a : ℚ) / 2) = ((-a : ℤ) : ℚ) / ((2 : ℕ) : ℚ) := by push_cast; ring
    rw [hneg, Rat.floor_intCast_div_natCast]
    have ht : (-a).tdiv 2 = (-a) / ((2 : ℕ) : ℤ) := by
      rw [Int.tdiv_eq_ediv] <;> omega
    rw [← ht, Int.neg_tdiv]
    ring

/-! Claim theorems. -/

/-- C1: the claim that relative-pixel resolution yields `max(0, b + d)` holds
for `unit_to_real_pixels` (src/src/main.rs), but the parallel resolution path
`impl Add<RelativePixels> for AbsolutePixels` (src/src/daemon/unit.rs) wraps a
negative sum modulo 2^32 instead of clamping it to zero: at baseline 100 px and
delta −200 px it produces 4294967196 where the claim requires 0. -/
theorem relativePixels_add_wraps_not_clamped :
    absolutePixels_add_relativePixels 100 (-200) = 4294967196 ∧
    unit_to_real_pixels (.Relative (.Pixels (-200))) 100 1000 = 0 := by
  constructor
  · decide
  · have hsat : satAddI32 100 (-200) = -100 := by
      rw [satAddI32, i32sat_of_mem] <;> norm_num
    have hmax : ratMaxZero ((satAddI32 100 (-200) : ℤ) : ℚ) = 0 := by
      rw [hsat, ratMaxZero, if_neg (by norm_num)]
    show i32sat (rustRound (ratMaxZero ((satAddI32 100 (-200) : ℤ) : ℚ))) = 0
    rw [hmax, rustRound_zero, i32sat_of_mem] <;> norm_num

/-- C4: width/height coupling of `State::update` (src/src/main.rs): an update
supplying both dimensions replaces both, an update supplying exactly one
replaces it and clears the other to unset, and an update supplying neither
leaves both unchanged (so, in particular, a width-only update makes a
previously set height unset). -/
theorem state_update_width_height_coupling (s : State) (u : StateUpdate) :
    ((s.update u).width, (s.update u).height) =
      match u.width, u.height with
      | some w, some h => (w, h)
      | some w, none => (w, none)
      | none, some h => (none, h)
      | none, none => (s.width, s.height) := by
  rcases u with ⟨pos, pad, w, h, nat⟩
  rcases w with _ | w <;> rcases h with _ | h <;>
    rcases pad with _ | pad <;> rcases nat with _ | nat <;>
      simp [State.update]

/-- C8: `State::update` (src/src/main.rs) is idempotent: merging the empty
update (all fields absent) leaves any state unchanged, and merging any update
twice yields the same state as merging it once. -/
theorem state_update_idempotent (s : State) (u : StateUpdate) :
    s.update .empty = s ∧ (s.update u).update u = s.update u := by
  constructor
  · rcases s with ⟨⟨sv, sh⟩, spad, sw, sht, snat⟩
    simp [State.update, StateUpdate.empty, Position.update]
  · rcases u with ⟨⟨uv, uh⟩, upad, uw, uht, unat⟩
    rcases uv with _ | uv <;> rcases uh with _ | uh <;>
      rcases upad with _ | upad <;> rcases unat with _ | unat <;>
        rcases uw with _ | uw <;> rcases uht with _ | uht <;>
          simp [State.update, Position.update]

/-- C10: `Rect::get_pos_for_rect_of_size` (src/src/main.rs) reads only the
width/height of the two rectangles: changing either rectangle's origin leaves
the output unchanged, and the output's width and height are those of the size
rectangle. -/
theorem get_pos_independent_of_origins (c s : Rect) (p : Position) (cx cy sx sy : ℤ) :
    Rect.get_pos_for_rect_of_size { c with x := cx, y := cy } p { s with x := sx, y := sy } =
        Rect.get_pos_for_rect_of_size c p s ∧
      (Rect.get_pos_for_rect_of_size c p s).width = s.width ∧
      (Rect.get_pos_for_rect_of_size c p s).height = s.height := by
  exact ⟨rfl, rfl, rfl⟩

/-- C3: in the event loop of src/src/main.rs `run_daemon`, the update is merged
into the Placement State before `move_window` runs on a clone, so when the pass
fails (selector or apply error) the state carried to the next iteration still
contains the failed update's merge — it is not rolled back. -/
theorem failed_pass_keeps_merged_state (s : State) (u : StateUpdate)
    (mv : State → Except StateUpdateError PUnit) (e : StateUpdateError)
    (hfail : mv (s.update u) = .error e) :
    (daemonUpdateStep s u mv).1 = s.update u ∧
      (daemonUpdateStep s u mv).2 = some e := by
  rw [daemonUpdateStep, hfail]
  exact ⟨rfl, rfl⟩

theorem failed_pass_keeps_merged_state_witness :
    (daemonUpdateStep State.default
        { StateUpdate.empty with padding := some 7 }
        (fun _ => .error .NoApplicableNode)).1 =
      State.default.update { StateUpdate.empty with padding := some 7 } :=
  (failed_pass_keeps_merged_state State.default
    { StateUpdate.empty with padding := some 7 }
    (fun _ => .error .NoApplicableNode) .NoApplicableNode rfl).1

/-- C9: the claim that an invocation with both size arguments absent leaves the
state's width and height unchanged is violated by src/src/main.rs
`impl From<Args> for StateUpdate`, which wraps them as `Some(None)`: merging
the derived update into a state holding width 100 px and height 50 px clears
both to unset. -/
theorem args_without_size_clears_state_size :
    let args : Args :=
      { vertical := none, horizontal := none, padding := none, width := none,
        height := none, natural := none, daemon := false, sway_event_delay := 200,
        shutdown := false }
    let s : State :=
      { State.default with
        width := some (.Absolute (.Pixels 100)),
        height := some (.Absolute (.Pixels 50)) }
    (stateUpdateFromArgs args).width = some none ∧
      (s.update (stateUpdateFromArgs args)).width = none ∧
      (s.update (stateUpdateFromArgs args)).height = none ∧
      s.width ≠ none ∧ s.height ≠ none := by
  refine ⟨rfl, rfl, rfl, ?_, ?_⟩ <;> simp [State.default]

lemma rustRound_concrete {q : ℚ} {z : ℤ} (h0 : 0 ≤ q) (hl : (z : ℚ) ≤ q + 1 / 2)
    (hu : q + 1 / 2 < z + 1) : rustRound q = z := by
  rw [rustRound, if_pos h0]
  exact Int.floor_eq_iff.mpr ⟨hl, hu⟩

lemma tdiv_two_bounds {a : ℤ} (h1 : -(2 ^ 31) ≤ a) (h2 : a ≤ 2 ^ 31 - 1) :
    -(2 ^ 31) ≤ a.tdiv 2 ∧ a.tdiv 2 ≤ 2 ^ 31 - 1 := by
  rcases le_or_lt 0 a with h | h
  · rw [Int.tdiv_eq_ediv h (by omega)]
    omega
  · have hneg : a.tdiv 2 = -((-a).tdiv 2) := by
      rw [Int.neg_tdiv, neg_neg]
    rw [hneg, Int.tdiv_eq_ediv (by omega) (by omega)]
    omega

/-- C2 counterexample: converting 4 px to a percentage of a 1000 px container
and back yields 0 px (src/src/daemon/unit.rs rounds the percentage to a whole
percent), an error of 4 pixels — more than the one pixel the claim allows. -/
theorem percentage_roundtrip_counterexample :
    as_absolute_pixels (as_absolute_percentage 4 1000) 1000 = 0 ∧
      1 < |(4 : ℤ) - ((as_absolute_pixels (as_absolute_percentage 4 1000) 1000 : ℕ) : ℤ)| := by
  have h1 : as_absolute_percentage 4 1000 = 0 := by
    rw [as_absolute_percentage]
    have hx : ((4 : ℕ) : ℚ) / ((1000 : ℤ) : ℚ) * 100 = 2 / 5 := by norm_num
    rw [hx, rustRound_concrete (z := 0) (by norm_num) (by norm_num) (by norm_num)]
    norm_num
  have h2 : as_absolute_pixels (as_absolute_percentage 4 1000) 1000 = 0 := by
    rw [h1, as_absolute_pixels]
    have hy : (0 : ℚ) / 100 * ((1000 : ℤ) : ℚ) = 0 := by norm_num
    rw [hy, rustRound_zero]
    decide
  refine ⟨h2, ?_⟩
  rw [h2]
  decide

/-- C2 amended: because `as_absolute_percentage` rounds to a whole percent,
the pixel→percentage→pixel round-trip is only accurate to `c/200 + 1/2` pixels
(each rounding contributes half a unit at its own scale), not to one pixel;
stated here for inputs where the `f32` model is meaningful and the final `u32`
cast cannot saturate. -/
theorem percentage_roundtrip_bound (p : ℕ) (c : ℤ)
    (hc : 0 < c) (hp : (p : ℤ) ≤ 2 ^ 31) (hcb : c ≤ 2 ^ 31) :
    |((as_absolute_pixels (as_absolute_percentage p c) c : ℕ) : ℚ) - (p : ℚ)| ≤
      (c : ℚ) / 200 + 1 / 2 := by
  have hcq : (0 : ℚ) < (c : ℚ) := by exact_mod_cast hc
  have hx0 : 0 ≤ (p : ℚ) / (c : ℚ) * 100 := by positivity
  have hq : as_absolute_percentage p c = ((round ((p : ℚ) / (c : ℚ) * 100) : ℤ) : ℚ) := by
    rw [as_absolute_percentage, rustRound_eq_round hx0]
  have hq0 : (0 : ℤ) ≤ round ((p : ℚ) / (c : ℚ) * 100) := by
    rw [← rustRound_eq_round hx0]
    exact rustRound_nonneg hx0
  have hy0 : 0 ≤ ((round ((p : ℚ) / (c : ℚ) * 100) : ℤ) : ℚ) / 100 * (c : ℚ) := by
    have : (0 : ℚ) ≤ ((round ((p : ℚ) / (c : ℚ) * 100) : ℤ) : ℚ) := by exact_mod_cast hq0
    positivity
  have hr : as_absolute_pixels (as_absolute_percentage p c) c =
      u32cast (round (((round ((p : ℚ) / (c : ℚ) * 100) : ℤ) : ℚ) / 100 * (c : ℚ))) := by
    rw [hq, as_absolute_pixels, rustRound_eq_round hy0]
  have hr0 : (0 : ℤ) ≤ round (((round ((p : ℚ) / (c : ℚ) * 100) : ℤ) : ℚ) / 100 * (c : ℚ)) := by
    rw [← rustRound_eq_round hy0]
    exact rustRound_nonneg hy0
  have e1 : |(p : ℚ) / (c : ℚ) * 100 - ((round ((p : ℚ) / (c : ℚ) * 100) : ℤ) : ℚ)| ≤ 1 / 2 :=
    abs_sub_round _
  have e2 : |((round ((p : ℚ) / (c : ℚ) * 100) : ℤ) : ℚ) / 100 * (c : ℚ) -
      ((round (((round ((p : ℚ) / (c : ℚ) * 100) : ℤ) : ℚ) / 100 * (c : ℚ)) : ℤ) : ℚ)| ≤ 1 / 2 :=
    abs_sub_round _
  have e1' : |(p : ℚ) - ((round ((p : ℚ) / (c : ℚ) * 100) : ℤ) : ℚ) / 100 * (c : ℚ)| ≤
      (c : ℚ) / 200 := by
    have hid : (p : ℚ) - ((round ((p : ℚ) / (c : ℚ) * 100) : ℤ) : ℚ) / 100 * (c : ℚ) =
        ((p : ℚ) / (c : ℚ) * 100 - ((round ((p : ℚ) / (c : ℚ) * 100) : ℤ) : ℚ)) *
          ((c : ℚ) / 100) := by
      field_simp
      ring
    rw [hid, abs_mul, abs_of_nonneg (by positivity : (0 : ℚ) ≤ (c : ℚ) / 100)]
    calc |(p : ℚ) / (c : ℚ) * 100 - ((round ((p : ℚ) / (c : ℚ) * 100) : ℤ) : ℚ)| *
          ((c : ℚ) / 100) ≤ (1 / 2) * ((c : ℚ) / 100) := by
            apply mul_le_mul_of_nonneg_right e1 (by positivity)
      _ = (c : ℚ) / 200 := by ring
  have hrub : ((round (((round ((p : ℚ) / (c : ℚ) * 100) : ℤ) : ℚ) / 100 * (c : ℚ)) : ℤ) : ℚ) ≤
      (p : ℚ) + (c : ℚ) / 200 + 1 / 2 := by
    have a1 := abs_le.mp e1'
    have a2 := abs_le.mp e2
    linarith [a1.1, a1.2, a2.1, a2.2]
  have hrub' : round (((round ((p : ℚ) / (c : ℚ) * 100) : ℤ) : ℚ) / 100 * (c : ℚ)) ≤
      2 ^ 32 - 1 := by
    have hpq : (p : ℚ) ≤ 2 ^ 31 := by exact_mod_cast hp
    have hcq2 : (c : ℚ) ≤ 2 ^ 31 := by exact_mod_cast hcb
    have hb : ((round (((round ((p : ℚ) / (c : ℚ) * 100) : ℤ) : ℚ) / 100 * (c : ℚ)) : ℤ) : ℚ) ≤
        ((2 ^ 32 - 1 : ℤ) : ℚ) := by push_cast; linarith
    exact_mod_cast hb
  have hcast : ((u32cast (round (((round ((p : ℚ) / (c : ℚ) * 100) : ℤ) : ℚ) / 100 *
      (c : ℚ))) : ℕ) : ℚ) =
      ((round (((round ((p : ℚ) / (c : ℚ) * 100) : ℤ) : ℚ) / 100 * (c : ℚ)) : ℤ) : ℚ) := by
    rw [u32cast, if_neg (by omega), if_pos hrub']
    exact_mod_cast Int.toNat_of_nonneg hr0
  rw [hr, hcast]
  have a1 := abs_le.mp e1'
  have a2 := abs_le.mp e2
  rw [abs_le]
  constructor <;> linarith [a1.1, a1.2, a2.1, a2.2]

theorem percentage_roundtrip_bound_witness :
    (0 : ℤ) < 1000 ∧
      |((as_absolute_pixels (as_absolute_percentage 4 1000) 1000 : ℕ) : ℚ) - ((4 : ℕ) : ℚ)| ≤
        ((1000 : ℤ) : ℚ) / 200 + 1 / 2 :=
  ⟨by norm_num, percentage_roundtrip_bound 4 1000 (by norm_num) (by norm_num) (by norm_num)⟩

/-- C6: `Rect::get_pos_for_rect_of_size` (src/src/main.rs) maps zones to the
offset fractions Top/Left ↦ 0, Middle ↦ 1/2, Bottom/Right ↦ 1, per axis, with
offset = fraction · (container extent − size extent); in particular (Top,Left)
places at (0,0), (Bottom,Right) at the extent difference, and (Middle,Middle)
at half the difference (truncated toward zero, as Rust integer division does).
The range hypotheses keep the `as i32` cast of the source from saturating. -/
theorem get_pos_zone_offsets (c s : Rect)
    (hw1 : -(2 ^ 31) ≤ c.width - s.width) (hw2 : c.width - s.width ≤ 2 ^ 31 - 1)
    (hh1 : -(2 ^ 31) ≤ c.height - s.height) (hh2 : c.height - s.height ≤ 2 ^ 31 - 1) :
    (∀ pos : Position,
        (c.get_pos_for_rect_of_size pos s).x =
          i32cast (h_offset pos.hor * ((c.width - s.width : ℤ) : ℚ)) ∧
        (c.get_pos_for_rect_of_size pos s).y =
          i32cast (v_offset pos.ver * ((c.height - s.height : ℤ) : ℚ))) ∧
    c.get_pos_for_rect_of_size ⟨.Top, .Left⟩ s =
      { x := 0, y := 0, width := s.width, height := s.height } ∧
    c.get_pos_for_rect_of_size ⟨.Bottom, .Right⟩ s =
      { x := c.width - s.width, y := c.height - s.height,
        width := s.width, height := s.height } ∧
    c.get_pos_for_rect_of_size ⟨.Middle, .Middle⟩ s =
      { x := (c.width - s.width).tdiv 2, y := (c.height - s.height).tdiv 2,
        width := s.width, height := s.height } := by
  have hfac : ∀ (a b : ℤ) (f : ℚ),
      (a : ℚ) * f - (b : ℚ) * f = f * ((a - b : ℤ) : ℚ) := by
    intro a b f
    push_cast
    ring
  refine ⟨?_, ?_, ?_, ?_⟩
  · intro pos
    constructor
    · show i32cast ((c.width : ℚ) * h_offset pos.hor - (s.width : ℚ) * h_offset pos.hor) = _
      rw [hfac]
    · show i32cast ((c.height : ℚ) * v_offset pos.ver - (s.height : ℚ) * v_offset pos.ver) = _
      rw [hfac]
  · show Rect.mk
      (i32cast ((c.width : ℚ) * h_offset .Left - (s.width : ℚ) * h_offset .Left))
      (i32cast ((c.height : ℚ) * v_offset .Top - (s.height : ℚ) * v_offset .Top))
      s.width s.height = _
    have hz : ∀ a b : ℤ, (a : ℚ) * h_offset .Left - (b : ℚ) * h_offset .Left = 0 := by
      intro a b
      simp [h_offset]
    have hz2 : ∀ a b : ℤ, (a : ℚ) * v_offset .Top - (b : ℚ) * v_offset .Top = 0 := by
      intro a b
      simp [v_offset]
    rw [hz, hz2]
    have h0 : i32cast 0 = 0 := by
      rw [i32cast, ratTrunc, if_pos le_rfl, Int.floor_zero, i32sat_of_mem] <;> norm_num
    rw [h0]
  · show Rect.mk
      (i32cast ((c.width : ℚ) * h_offset .Right - (s.width : ℚ) * h_offset .Right))
      (i32cast ((c.height : ℚ) * v_offset .Bottom - (s.height : ℚ) * v_offset .Bottom))
      s.width s.height = _
    have hone : ∀ a b : ℤ, (a : ℚ) * h_offset .Right - (b : ℚ) * h_offset .Right =
        ((a - b : ℤ) : ℚ) := by
      intro a b
      simp only [h_offset]
      push_cast
      ring
    have hone2 : ∀ a b : ℤ, (a : ℚ) * v_offset .Bottom - (b : ℚ) * v_offset .Bottom =
        ((a - b : ℤ) : ℚ) := by
      intro a b
      simp only [v_offset]
      push_cast
      ring
    rw [hone, hone2, i32cast, i32cast, ratTrunc_intCast, ratTrunc_intCast,
      i32sat_of_mem hw1 hw2, i32sat_of_mem hh1 hh2]
  · show Rect.mk
      (i32cast ((c.width : ℚ) * h_offset .Middle - (s.width : ℚ) * h_offset .Middle))
      (i32cast ((c.height : ℚ) * v_offset .Middle - (s.height : ℚ) * v_offset .Middle))
      s.width s.height = _
    have hhalf : ∀ a b : ℤ, (a : ℚ) * h_offset .Middle - (b : ℚ) * h_offset .Middle =
        ((a - b : ℤ) : ℚ) / 2 := by
      intro a b
      simp only [h_offset]
      push_cast
      ring
    have hhalf2 : ∀ a b : ℤ, (a : ℚ) * v_offset .Middle - (b : ℚ) * v_offset .Middle =
        ((a - b : ℤ) : ℚ) / 2 := by
      intro a b
      simp only [v_offset]
      push_cast
      ring
    rw [hhalf, hhalf2, i32cast, i32cast, ratTrunc_half, ratTrunc_half,
      i32sat_of_mem (tdiv_two_bounds hw1 hw2).1 (tdiv_two_bounds hw1 hw2).2,
      i32sat_of_mem (tdiv_two_bounds hh1 hh2).1 (tdiv_two_bounds hh1 hh2).2]

theorem get_pos_zone_offsets_witness :
    Rect.get_pos_for_rect_of_size ⟨0, 0, 100, 100⟩ ⟨.Middle, .Middle⟩ ⟨0, 0, 33, 33⟩ =
        { x := (33 : ℤ), y := 33, width := 33, height := 33 } ∧
      Rect.get_pos_for_rect_of_size ⟨0, 0, 100, 100⟩ ⟨.Bottom, .Right⟩ ⟨0, 0, 33, 33⟩ =
        { x := (67 : ℤ), y := 67, width := 33, height := 33 } := by
  have h := get_pos_zone_offsets ⟨0, 0, 100, 100⟩ ⟨0, 0, 33, 33⟩
    (by norm_num) (by norm_num) (by norm_num) (by norm_num)
  refine ⟨?_, ?_⟩
  · rw [h.2.2.2]
    decide
  · rw [h.2.2.1]
    decide

lemma scale_to_ratio_width (wpx : ℤ) (a : ℚ) :
    scale_to_ratio (.Width wpx) a =
      .Height (if a = 0 then 0 else i32sat (rustRound ((wpx : ℚ) / a))) := by
  by_cases ha : a = 0 <;> simp [scale_to_ratio, ha]

lemma scale_to_ratio_height (hpx : ℤ) (a : ℚ) :
    scale_to_ratio (.Height hpx) a =
      .Width (if a = 0 then 0 else i32sat (rustRound ((hpx : ℚ) * a))) := by
  by_cases ha : a = 0 <;> simp [scale_to_ratio, ha]

lemma unit_to_real_pixels_absolute_pixels (p : ℕ) (t c : ℤ) (hp : (p : ℤ) ≤ 2 ^ 31 - 1) :
    unit_to_real_pixels (.Absolute (.Pixels p)) t c = p := by
  show i32sat (rustRound (ratMaxZero (p : ℚ))) = p
  rw [ratMaxZero, if_pos (by positivity)]
  have hcast : ((p : ℕ) : ℚ) = (((p : ℕ) : ℤ) : ℚ) := by push_cast; rfl
  rw [hcast, rustRound_intCast, i32sat_of_mem (by omega) hp]

/-- C5: `Rect::scale` (src/src/main.rs) follows the specified case analysis:
both dimensions given — each resolved independently, no aspect ratio; only
width given — height is `round(resolved_width / aspect)` and 0 when the aspect
is 0; only height given — width is `round(resolved_height * aspect)` and 0 when
the aspect is 0; neither given — the size is the target rect's size unchanged.
The range hypotheses on the rounded value keep the source's `as i32` cast from
saturating. -/
theorem rect_scale_cases (self target container : Rect) (w h : Option Unit) (ratio : Option ℚ) :
    (∀ uw uh, w = some uw → h = some uh →
        Rect.scale self w h target container ratio =
          { self with
            width := unit_to_real_pixels uw target.width container.width,
            height := unit_to_real_pixels uh target.height container.height }) ∧
    (w = none → h = none →
        Rect.scale self w h target container ratio =
          { self with width := target.width, height := target.height }) ∧
    (∀ uw, w = some uw → h = none →
        (Rect.scale self w h target container ratio).width =
          unit_to_real_pixels uw target.width container.width ∧
        (ratio.getD (aspect_ratio target.width target.height) = 0 →
          (Rect.scale self w h target container ratio).height = 0) ∧
        (∀ z : ℤ, ratio.getD (aspect_ratio target.width target.height) ≠ 0 →
          rustRound ((unit_to_real_pixels uw target.width container.width : ℚ) /
            ratio.getD (aspect_ratio target.width target.height)) = z →
          -(2 ^ 31) ≤ z → z ≤ 2 ^ 31 - 1 →
          (Rect.scale self w h target container ratio).height = z)) ∧
    (∀ uh, w = none → h = some uh →
        (Rect.scale self w h target container ratio).height =
          unit_to_real_pixels uh target.height container.height ∧
        (ratio.getD (aspect_ratio target.width target.height) = 0 →
          (Rect.scale self w h target container ratio).width = 0) ∧
        (∀ z : ℤ, ratio.getD (aspect_ratio target.width target.height) ≠ 0 →
          rustRound ((unit_to_real_pixels uh target.height container.height : ℚ) *
            ratio.getD (aspect_ratio target.width target.height)) = z →
          -(2 ^ 31) ≤ z → z ≤ 2 ^ 31 - 1 →
          (Rect.scale self w h target container ratio).width = z)) := by
  refine ⟨?_, ?_, ?_, ?_⟩
  · intro uw uh hw hh
    subst hw
    subst hh
    rfl
  · intro hw hh
    subst hw
    subst hh
    rfl
  · intro uw hw hh
    subst hw
    subst hh
    refine ⟨rfl, ?_, ?_⟩
    · intro ha
      simp only [Rect.scale, scale_to_ratio_width]
      rw [if_pos ha]
    · intro z ha hz h1 h2
      simp only [Rect.scale, scale_to_ratio_width]
      rw [if_neg ha, hz, i32sat_of_mem h1 h2]
  · intro uh hw hh
    subst hw
    subst hh
    refine ⟨rfl, ?_, ?_⟩
    · intro ha
      simp only [Rect.scale, scale_to_ratio_height]
      rw [if_pos ha]
    · intro z ha hz h1 h2
      simp only [Rect.scale, scale_to_ratio_height]
      rw [if_neg ha, hz, i32sat_of_mem h1 h2]

theorem rect_scale_cases_witness :
    (Rect.scale ⟨0, 0, 200, 100⟩ (some (.Absolute (.Pixels 400))) none
        ⟨0, 0, 200, 100⟩ ⟨0, 0, 200, 100⟩ none).height = 200 := by
  have h3 := ((rect_scale_cases ⟨0, 0, 200, 100⟩ ⟨0, 0, 200, 100⟩ ⟨0, 0, 200, 100⟩
      (some (.Absolute (.Pixels 400))) none none).2.2.1 _ rfl rfl).2.2
  apply h3 200
  · show (Option.getD none (aspect_ratio 200 100)) ≠ 0
    rw [Option.getD_none, aspect_ratio, if_neg (by norm_num)]
    norm_num
  · show rustRound ((unit_to_real_pixels (.Absolute (.Pixels 400)) 200 200 : ℚ) /
      Option.getD none (aspect_ratio 200 100)) = 200
    rw [unit_to_real_pixels_absolute_pixels 400 200 200 (by norm_num)]
    rw [Option.getD_none, aspect_ratio, if_neg (by norm_num)]
    have hdiv : ((((400 : ℕ) : ℤ)) : ℚ) / (((200 : ℤ) : ℚ) / ((100 : ℤ) : ℚ)) =
        ((200 : ℤ) : ℚ) := by
      push_cast
      norm_num
    rw [hdiv, rustRound_intCast]
  · norm_num
  · norm_num

/-- C7: the target-selection prefix of `move_window` (src/src/main.rs): a
single floating window is selected regardless of focus; no floating window
fails with `NoApplicableNode`; with two or more floating windows the focused
floating window is selected (whatever is selected is focused and floating),
and the pass fails with `MultipleApplicableNodes` exactly when no window of
the snapshot is both focused and floating. -/
theorem select_target_policy (tree : List SwayNode) :
    (∀ n, floating_nodes tree = [n] → select_target tree = .ok n) ∧
    (floating_nodes tree = [] → select_target tree = .error .NoApplicableNode) ∧
    (2 ≤ (floating_nodes tree).length →
      (∀ n0, find_focused_as_ref tree (fun n => n.focused && n.floating) = some n0 →
        select_target tree = .ok n0) ∧
      (∀ n, select_target tree = .ok n → n.focused = true ∧ n.floating = true) ∧
      (select_target tree = .error .MultipleApplicableNodes ↔
        ∀ n ∈ tree, ¬(n.focused = true ∧ n.floating = true))) := by
  refine ⟨?_, ?_, ?_⟩
  · intro n hfl
    rw [select_target, hfl]
  · intro hfl
    rw [select_target, hfl]
  · intro hlen
    have hshape : ∃ a b t, floating_nodes tree = a :: b :: t := by
      rcases hfl : floating_nodes tree with _ | ⟨a, _ | ⟨b, t⟩⟩
      · rw [hfl] at hlen
        simp at hlen
      · rw [hfl] at hlen
        simp at hlen
      · exact ⟨a, b, t, rfl⟩
    rcases hshape with ⟨a, b, t, hfl⟩
    rcases hfind : find_focused_as_ref tree (fun n => n.focused && n.floating) with _ | n0
    · have hfind' : tree.find? (fun n => n.focused && n.floating) = none := hfind
      have hsel : select_target tree = .error .MultipleApplicableNodes := by
        rw [select_target, hfl, hfind]
      refine ⟨?_, ?_, ?_⟩
      · intro n0 habs
        exact absurd habs (by simp)
      · intro n habs
        rw [hsel] at habs
        exact absurd habs (by simp)
      · rw [hsel]
        have hnone := List.find?_eq_none.mp hfind'
        constructor
        · intro _ n hn hcontra
          have := hnone n hn
          simp [hcontra.1, hcontra.2] at this
        · intro _
          rfl
    · have hfind' : tree.find? (fun n => n.focused && n.floating) = some n0 := hfind
      have hsel : select_target tree = .ok n0 := by
        rw [select_target, hfl, hfind]
      have hmem : n0 ∈ tree := List.mem_of_find?_eq_some hfind'
      have hp' : n0.focused = true ∧ n0.floating = true := by
        have hp := List.find?_some hfind'
        simpa [Bool.and_eq_true] using hp
      refine ⟨?_, ?_, ?_⟩
      · intro n1 hfind1
        injection hfind1 with h1
        rw [hsel, h1]
      · intro n habs
        rw [hsel] at habs
        injection habs with h1
        rw [← h1]
        exact hp'
      · rw [hsel]
        constructor
        · intro habs
          exact absurd habs (by simp)
        · intro hall
          exact absurd hp' (hall n0 hmem)

theorem select_target_policy_witness :
    select_target [⟨1, true, false⟩] = .ok ⟨1, true, false⟩ ∧
      select_target [⟨1, false, true⟩] = .error .NoApplicableNode ∧
      select_target [⟨1, true, false⟩, ⟨2, true, true⟩] = .ok ⟨2, true, true⟩ := by
  refine ⟨?_, ?_, ?_⟩
  · exact (select_target_policy [⟨1, true, false⟩]).1 ⟨1, true, false⟩ rfl
  · exact (select_target_policy [⟨1, false, true⟩]).2.1 rfl
  · exact ((select_target_policy [⟨1, true, false⟩, ⟨2, true, true⟩]).2.2
      (by decide)).1 ⟨2, true, true⟩ rfl

end SwayGravity
